import Mathlib

/-!
Verification of the DataServer live-streaming core (StreamCentre, the
streamFragment handshake and serve loop, and the client-side StreamMessage
codec) against its natural-language specification.

The embedding models:
* JSON values (`JVal`) as the payloads carried on the wire; wire messages are
  JSON objects, so inbound buffers are modelled as either invalid JSON or a
  JSON object (`Buffer`).
* Python dicts as insertion-ordered association lists (`alookup` / `aset`),
  matching dict iteration order, which `StreamCentre.push` relies on.
* the WebSocket transport (`WS`) by an identifier and a connected flag; the
  possibility that `Server.send` raises is modelled by a `sendFails` oracle
  over transport identifiers.
* wall-clock time as `ℚ` (the serve loop's rate gate compares fractional
  second differences).
-/

namespace DataServer

/-- JSON values.  Arrays are irrelevant to every modelled operation (the
streaming core only inspects objects, strings and the null produced by a
missing fragment), so they are omitted. -/
inductive JVal where
  | null
  | bool (b : Bool)
  | num (n : Int)
  | str (s : String)
  | obj (fields : List (String × JVal))

/-- Python equality test of a value against a string literal, as in
`msgType == "unknown"` or `action == "write"`: true exactly when the value is
that string. -/
def JVal.isStrEq : JVal → String → Bool
  | .str t, s => t = s
  | _, _ => false

/-- Whether a JSON value is an object, as in `isinstance(update["data"], dict)`. -/
def JVal.isObj : JVal → Bool
  | .obj _ => true
  | _ => false

/-- First-match lookup in an association list: the model of Python
`d[k]` / `k in d` on dicts. -/
def alookup {α : Type} : List (String × α) → String → Option α
  | [], _ => none
  | (k, v) :: rest, key => if k = key then some v else alookup rest key

/-- Python dict assignment `d[k] = v`: update in place if the key exists,
else append (insertion order preserved). -/
def aset {α : Type} : List (String × α) → String → α → List (String × α)
  | [], key, v => [(key, v)]
  | (k, w) :: rest, key, v =>
    if k = key then (k, v) :: rest else (k, w) :: aset rest key v

/-- Python dict deletion `del d[k]`. -/
def aremove {α : Type} (l : List (String × α)) (key : String) : List (String × α) :=
  l.filter (fun e => e.1 ≠ key)

/- The MessageWriter producers (src/models.py): the four shapes of the wire
protocol, as the JSON objects they serialise to. -/
namespace MessageWriter

def normal (msg : String) : JVal := .obj [("message", .str msg)]

def error (err : String) : JVal := .obj [("error", .str err)]

def successEvent (msg : String) : JVal :=
  .obj [("event", .str "success"), ("message", .str msg)]

def writeEvent (data : JVal) : JVal :=
  .obj [("event", .str "write"), ("data", data)]

def readEvent (data : JVal) : JVal :=
  .obj [("event", .str "read"), ("data", data)]

end MessageWriter

/-- A WebSocket transport handle (`simple_websocket.Server`): identified by
`wsid`; `connected` mirrors the `Server.connected` flag read by
`clearClosedConnections`. -/
structure WS where
  wsid : Nat
  connected : Bool
deriving DecidableEq, Repr

/-- One session record stored by `StreamCentre.addConnection`: the dict
holding ip, datetime and the transport handle. -/
structure ConnRecord where
  ip : String
  datetime : ℚ
  ws : WS
deriving DecidableEq, Repr

/-- Model of `StreamCentre.connections`: fragmentID → (connectionID → record). -/
abbrev Registry := List (String × List (String × ConnRecord))

/-- Look a single connection up across both levels of the table. -/
def connLookup (reg : Registry) (fragmentID connectionID : String) : Option ConnRecord :=
  (alookup reg fragmentID).bind (fun g => alookup g connectionID)

/-- The per-group effect of `clearClosedConnections`: drop every record whose
transport reports not connected. -/
def reapGroup (g : List (String × ConnRecord)) : List (String × ConnRecord) :=
  g.filter (fun e => e.2.ws.connected)

/-- Model of `StreamCentre.clearClosedConnections` (src/models.py 330-339): every dead
connection is removed via `removeConnection`, which also deletes a fragment
group when the removal leaves it empty.  Net effect: each group is filtered to
its connected members, and a group that became empty through removals is
dropped (a group that was already empty is never touched). -/
def clearClosedConnections (reg : Registry) : Registry :=
  reg.filterMap (fun fg =>
    let kept := reapGroup fg.2
    if kept.isEmpty && !fg.2.isEmpty then none else some (fg.1, kept))

/-- Model of `StreamCentre.removeConnection` (src/models.py 317-328). -/
def removeConnection (reg : Registry) (fragmentID connectionID : String) :
    Registry × Bool :=
  match alookup reg fragmentID with
  | none => (reg, false)
  | some g =>
    match alookup g connectionID with
    | none => (reg, false)
    | some _ =>
      let g' := aremove g connectionID
      if g'.isEmpty then (aremove reg fragmentID, true)
      else (aset reg fragmentID g', true)

/-- Result of `StreamCentre.push`: the registry after the initial reap, the
boolean the function returns, the transports the frame actually reached (in
iteration order), and the log entries emitted. -/
structure PushResult where
  reg : Registry
  ok : Bool
  sentTo : List Nat
  log : List String
deriving DecidableEq, Repr

/-- Frames can fail mid-broadcast, so the helper name records where a frame
actually went. -/
def PushResult.reached (r : PushResult) (wsid : Nat) : Prop := wsid ∈ r.sentTo

/-- The send loop inside `push`'s single try block (iterating the fragment's
connections and calling `connection.send(data)`): a raising send aborts the
whole loop (control jumps to the except handler), so nothing after the
failing connection is sent. -/
def sendLoop (sendFails : Nat → Bool) : List (String × ConnRecord) → Bool × List Nat
  | [] => (true, [])
  | e :: rest =>
    if sendFails e.2.ws.wsid then (false, [])
    else
      let r := sendLoop sendFails rest
      (r.1, e.2.ws.wsid :: r.2)

/-- Model of `StreamCentre.push` (src/models.py 417-430): reap, then send to every
connection of the fragment inside one try/except; an exception is logged and
`False` returned. -/
def push (reg : Registry) (fragmentID : String) (sendFails : Nat → Bool) : PushResult :=
  match alookup (clearClosedConnections reg) fragmentID with
  | none => ⟨clearClosedConnections reg, true, [], []⟩
  | some g =>
    ⟨clearClosedConnections reg, (sendLoop sendFails g).1, (sendLoop sendFails g).2,
      if (sendLoop sendFails g).1 then []
      else ["STREAMCENTRE PUSH ERROR: Failed to push data to fragment ID."]⟩

/-- Result of `StreamCentre.close` in its two-identifier mode. -/
structure CloseResult where
  reg : Registry
  ok : Bool
deriving DecidableEq, Repr

/-- Model of `StreamCentre.close(fragmentID, connectionID)` (src/models.py 342-355):
reap, then close and remove the one matching connection. -/
def close (reg : Registry) (fragmentID connectionID : String) : CloseResult :=
  match alookup (clearClosedConnections reg) fragmentID with
  | none => ⟨clearClosedConnections reg, false⟩
  | some g =>
    match alookup g connectionID with
    | none => ⟨clearClosedConnections reg, false⟩
    | some _ =>
      ⟨(removeConnection (clearClosedConnections reg) fragmentID connectionID).1, true⟩

/-- Return shape of `StreamCentre.getConnections`: it returns two different shapes, the group
dict when the fragment is present, the empty *list* `[]` when absent. -/
inductive ConnectionsView where
  | emptyList
  | table (g : List (String × ConnRecord))
deriving DecidableEq, Repr

/-- Model of `StreamCentre.getConnections` (src/models.py 396-401). -/
def getConnections (reg : Registry) (fragmentID : String) : ConnectionsView :=
  match alookup reg fragmentID with
  | some g => .table g
  | none => .emptyList

/-- Python `len` applied to `getConnections`'s result: `len([]) = 0`,
`len(dict)` = number of entries. -/
def connectionsViewLen : ConnectionsView → Nat
  | .emptyList => 0
  | .table g => g.length

/-- Model of `StreamCentre.getConnectionsCount` (src/models.py 403-409): sums the raw
table without reaping. -/
def getConnectionsCount (reg : Registry) : Nat :=
  (reg.map (fun fg => fg.2.length)).sum

/-- Transport identifiers of the connected sessions in the raw table. -/
def connectedWsIDs (reg : Registry) : List Nat :=
  reg.flatMap (fun fg => (reapGroup fg.2).map (fun e => e.2.ws.wsid))

/-- The 62-character alphabet of `Universal.generateUniqueID` (src/models.py 59). -/
def sourceChars : List Char :=
  "0123456789abcdefghijklmnopqrstuvwxyzABCDEFGHIJKLMNOPQRSTUVWXYZ".toList

theorem sourceChars_length : sourceChars.length = 62 := by decide

/-- One draw of `random.choices(source, k=customLength)` rendered to a string:
a length-`k` choice of indices into the alphabet.  Length `k` and membership
in the alphabet hold by construction, exactly as for `random.choices`. -/
def renderID (k : Nat) (c : Fin k → Fin 62) : String :=
  String.mk ((List.ofFn c).map (fun j => sourceChars.get (Fin.cast sourceChars_length.symm j)))

/-- The retry loop of `Universal.generateUniqueID` (src/models.py 53-63): draw
candidates until one is outside `notIn`.  The source loop has no bound; the
model takes fuel, returning `none` only when the fuel runs out before a fresh
candidate appears (the theorems are conditional on a `some` result). -/
def generateUniqueID (k : Nat) (notIn : List String) (cand : Nat → Fin k → Fin 62) :
    Nat → Nat → Option String
  | 0, _ => none
  | fuel + 1, i =>
    if renderID k (cand i) ∈ notIn then generateUniqueID k notIn cand fuel (i + 1)
    else some (renderID k (cand i))

/-- The `if fragmentID not in connections: connections[fragmentID] = \x7b\x7d`
step at the top of `addConnection`. -/
def ensureGroup (reg : Registry) (fragmentID : String) : Registry :=
  if (alookup reg fragmentID).isSome then reg else aset reg fragmentID []

/-- Model of `StreamCentre.addConnection` (src/models.py 302-315): ensure the
fragment group exists, draw a `connectionID` collision-checked against the
group's current keys, and store the record under it. -/
def addConnection (reg : Registry) (fragmentID ip : String) (now : ℚ) (ws : WS)
    (cand : Nat → Fin 10 → Fin 62) (fuel : Nat) : Option (Registry × String) :=
  match generateUniqueID 10
      (((alookup (ensureGroup reg fragmentID) fragmentID).getD []).map Prod.fst)
      cand fuel 0 with
  | none => none
  | some connectionID =>
    some (aset (ensureGroup reg fragmentID) fragmentID
      (aset ((alookup (ensureGroup reg fragmentID) fragmentID).getD []) connectionID
        ⟨ip, now, ws⟩), connectionID)

/-- Fragment metadata as stored in `DataStore.system`; only the fields the
streaming core reads or writes are modelled (reason, originalIP and created
are never touched by it). -/
structure FragMeta where
  secret : String
  approved : Bool
  knownIPs : List String
  lastUpdate : Option ℚ
deriving DecidableEq, Repr

/-- An inbound wire buffer: either not valid JSON (in Python, `json.loads`
raises), or a decoded JSON object.  Wire messages of this protocol are always
JSON objects (spec section 4.3). -/
inductive Buffer where
  | invalid
  | valid (fields : List (String × JVal))

/-- The process environment consumed by the streaming core. -/
structure Env where
  streamEnabled : Bool
  maxConnections : Nat
  maxStreamConnections : Nat
  configuredAPIKey : Option String

/-- A key of the auth payload read as a string, as the handshake's
`(param not in auth) or (not isinstance(auth[param], str))` check does. -/
def getStrKey (fields : List (String × JVal)) (key : String) : Option String :=
  match alookup fields key with
  | some (.str s) => some s
  | _ => none

/-- Every way the `streamFragment` handshake (src/main.py 299-349) can end,
up to and including registration. -/
inductive HandshakeResult where
  | unavailable
  | maxConnsReached
  | authTimeout
  | invalidPayload
  | authFailed
  | fragmentNotFound
  | maxStreamReached
  | registered (connectionID : String) (reg : Registry)

/-- Model of the `streamFragment` admission and authentication phase
(src/main.py 299-349), in source order: permission gate; global
connection-count check on the raw table; 3-second receive (a `none` auth is
the timeout); JSON parse and required-parameter checks; API-key check (only
when one is configured); fragment existence; secret verification (via the
`verify` oracle standing for `Encryption.verifySHA256`); per-fragment
connection-count check on the raw table; then registration.  The result is
`none` only if the model's ID-generation fuel runs out. -/
def streamFragmentHandshake (env : Env) (verify : String → String → Bool)
    (system : List (String × FragMeta)) (reg : Registry)
    (ip : String) (ws : WS) (now : ℚ) (auth : Option Buffer)
    (cand : Nat → Fin 10 → Fin 62) (fuel : Nat) : Option HandshakeResult :=
  if ¬env.streamEnabled then some .unavailable
  else if env.maxConnections ≤ getConnectionsCount reg then some .maxConnsReached
  else
    match auth with
    | none => some .authTimeout
    | some .invalid => some .invalidPayload
    | some (.valid fields) =>
      match getStrKey fields "apiKey", getStrKey fields "fragmentID",
          getStrKey fields "secret" with
      | some apiKey, some fragID, some secret =>
        if env.configuredAPIKey.isSome && env.configuredAPIKey ≠ some apiKey then
          some .authFailed
        else
          match alookup system fragID with
          | none => some .fragmentNotFound
          | some meta =>
            if ¬verify secret meta.secret then some .authFailed
            else if env.maxStreamConnections ≤
                connectionsViewLen (getConnections reg fragID) then
              some .maxStreamReached
            else
              match addConnection reg fragID ip now ws cand fuel with
              | none => none
              | some (reg', connID) => some (.registered connID reg')
      | _, _, _ => some .invalidPayload

/-- Model of `DataStore.writeFragment` (src/database.py 26-41): the datastore
file is a JSON document keyed by fragment ID; a write replaces that key.  The
file itself is modelled as always accessible (its I/O failure branch merely
logs and returns `False`). -/
def writeFragment (store : List (String × JVal)) (id : String) (data : JVal) :
    List (String × JVal) :=
  aset store id data

/-- Model of `DataStore.readFragment` (src/database.py 43-56): `None` when the
key is absent. -/
def readFragment (store : List (String × JVal)) (id : String) : Option JVal :=
  alookup store id

/-- The write action's metadata update (src/main.py 377-379): set
`lastUpdate`, append the caller's IP to `knownIPs` when it is new.  A missing
fragment entry is handled by the caller (in Python it would raise `KeyError`). -/
def recordWriteActivity (meta : FragMeta) (now : ℚ) (ip : String) : FragMeta :=
  { meta with
    lastUpdate := some now
    knownIPs := if ip ∈ meta.knownIPs then meta.knownIPs else meta.knownIPs ++ [ip] }

/-- What `ws.receive()` yields to one serve-loop iteration: an inbound frame
at an absolute time, or a transport-level failure (the call raises). -/
inductive RecvEvent where
  | frame (t : ℚ) (buf : Buffer)
  | transportFailure

/-- How a serve-loop iteration hands control back: continue looping, return
normally (the close action), or propagate an uncaught exception out of the
handler. -/
inductive LoopCtl where
  | continueLoop
  | returned
  | raised
deriving DecidableEq, Repr

/-- The identity of one Active session inside the serve loop: its fragment,
its connection ID and the caller's IP, all fixed at authentication. -/
structure SessionCtx where
  fragID : String
  connID : String
  ip : String

/-- The mutable state one serve-loop iteration reads and writes: the fragment
document store, the system metadata, the shared registry, and
`lastUpdateReceived` (the rate-gate clock). -/
structure LoopState where
  store : List (String × JVal)
  system : List (String × FragMeta)
  reg : Registry
  lastUpdateReceived : ℚ

/-- Everything one serve-loop iteration did: the state it left behind, the
frames sent on the session's own transport, the broadcast frame and its
recipients (empty unless a write was executed), whether the frame passed the
rate gate, and how control left the iteration. -/
structure StepResult where
  st : LoopState
  ownFrames : List JVal
  pushedFrame : Option JVal
  pushedTo : List Nat
  accepted : Bool
  ctl : LoopCtl

/-- The write action's body (src/main.py 371-384): persist to the store,
update the fragment's metadata (a missing metadata entry makes the Python
code raise `KeyError`, after the store write), then broadcast the write
event to the fragment's connections. -/
def execWriteAction (ctx : SessionCtx) (sendFails : Nat → Bool) (st1 : LoopState)
    (t : ℚ) (d : JVal) : StepResult :=
  match alookup st1.system ctx.fragID with
  | none =>
    ⟨{ st1 with store := writeFragment st1.store ctx.fragID d }, [], none, [],
      true, .raised⟩
  | some meta =>
    ⟨⟨writeFragment st1.store ctx.fragID d,
        aset st1.system ctx.fragID (recordWriteActivity meta t ctx.ip),
        (push st1.reg ctx.fragID sendFails).reg, t⟩, [],
      some (MessageWriter.writeEvent d), (push st1.reg ctx.fragID sendFails).sentTo,
      true, .continueLoop⟩

/-- The non-write arms of the action dispatch (src/main.py 385-394): `read`,
`close`, and the invalid-action fallthrough, which a `write` with a
missing or non-object `data` also reaches. -/
def execOtherAction (ctx : SessionCtx) (st1 : LoopState) (act : JVal) : StepResult :=
  if act.isStrEq "read" then
    ⟨st1,
      [MessageWriter.readEvent ((readFragment st1.store ctx.fragID).getD .null)],
      none, [], true, .continueLoop⟩
  else if act.isStrEq "close" then
    ⟨{ st1 with reg := (close st1.reg ctx.fragID ctx.connID).reg }, [], none, [],
      true, .returned⟩
  else
    ⟨st1, [MessageWriter.error "Invalid action."], none, [], true, .continueLoop⟩

/-- The parse-and-dispatch half of a serve-loop iteration, entered once the
rate gate accepts a frame; `st1` already carries the updated
`lastUpdateReceived`. -/
def serveDispatch (ctx : SessionCtx) (sendFails : Nat → Bool) (st1 : LoopState)
    (t : ℚ) : Buffer → StepResult
  | .invalid =>
    ⟨st1, [MessageWriter.error "Payload unparsable. Please try again."],
      none, [], true, .continueLoop⟩
  | .valid fields =>
    match alookup fields "action" with
    | none =>
      ⟨st1, [MessageWriter.error "Unexpected payload. Please try again."],
        none, [], true, .continueLoop⟩
    | some act =>
      match alookup fields "data" with
      | some d =>
        if act.isStrEq "write" && d.isObj then
          execWriteAction ctx sendFails st1 t d
        else execOtherAction ctx st1 act
      | none => execOtherAction ctx st1 act

/-- Model of one iteration of the `streamFragment` serve loop
(src/main.py 351-397): receive; silently discard any frame arriving less
than 0.5 seconds after the previous accepted one (without touching the
clock); then parse and dispatch.  A raising `ws.receive()` propagates out of
the handler. -/
def serveStep (ctx : SessionCtx) (sendFails : Nat → Bool) (st : LoopState)
    (ev : RecvEvent) : StepResult :=
  match ev with
  | .transportFailure => ⟨st, [], none, [], false, .raised⟩
  | .frame t buf =>
    if t - st.lastUpdateReceived < 1 / 2 then
      ⟨st, [], none, [], false, .continueLoop⟩
    else serveDispatch ctx sendFails { st with lastUpdateReceived := t } t buf

/-- The client-side parse result (src/client.py 96-134): `type` is whatever
the constructor assigned to `msgType` (normally a string, but the code copies
the raw `event` value), `data` and `message` are the optional payloads. -/
structure StreamMessage where
  type : JVal
  data : Option JVal
  message : Option JVal

/-- The first classification phase of `StreamMessage.__init__`
(src/client.py 117-123): the pair of `msgType` and `msg` before the
`message`-key phase runs. -/
def parseBase (fields : List (String × JVal)) : JVal × Option JVal :=
  match alookup fields "error" with
  | some e => (.str "error", some e)
  | none =>
    match alookup fields "event" with
    | some ev => (ev, none)
    | none => (.str "unknown", none)

/-- The second phase (src/client.py 126-129): a present `message` key
overrides `msg` and promotes a still-`unknown` `msgType` to `message`. -/
def parseFinal (fields : List (String × JVal)) : JVal × Option JVal :=
  match alookup fields "message" with
  | some m =>
    (if (parseBase fields).1.isStrEq "unknown" then .str "message"
     else (parseBase fields).1, some m)
  | none => parseBase fields

/-- Model of `CloudFragment.StreamMessage.__init__` (src/client.py 111-134):
classify by `error`, then `event`, else `unknown`; then a present `message`
overrides the message and promotes a still-`unknown` type to `message`; the
`data` key is carried through unconditionally.  Invalid JSON makes
`json.loads` raise, which the constructor does not catch. -/
def parseStreamMessage : Buffer → Option StreamMessage
  | .invalid => none
  | .valid fields =>
    some ⟨(parseFinal fields).1, alookup fields "data", (parseFinal fields).2⟩

/-- Dict well-formedness of the registry table: fragment keys are unique, and
connection keys are unique within each group (Python dicts guarantee both). -/
def RegistryWF (reg : Registry) : Prop :=
  (reg.map Prod.fst).Nodup ∧ ∀ fg ∈ reg, (fg.2.map Prod.fst).Nodup

/-- Spec-worded classification of the message type (claim C9): the base type
by the error/event/unknown precedence. -/
def claimedBaseType (fields : List (String × JVal)) : JVal :=
  if (alookup fields "error").isSome then .str "error"
  else
    match alookup fields "event" with
    | some ev => ev
    | none => .str "unknown"

/-- Spec-worded classification of the message type (claim C9): a present
`message` key turns a still-`unknown` type into `message`. -/
def claimedType (fields : List (String × JVal)) : JVal :=
  if (alookup fields "message").isSome && (claimedBaseType fields).isStrEq "unknown"
  then .str "message" else claimedBaseType fields

/-- Spec-worded message field (claim C9): the `message` value when present,
else the `error` value when present, else nothing. -/
def claimedMessage (fields : List (String × JVal)) : Option JVal :=
  match alookup fields "message" with
  | some m => some m
  | none => alookup fields "error"

/-- A candidate stream for ID generation used in concrete scenarios: every
draw is the first ten alphabet characters, rendering to "0123456789". -/
def idCand : Nat → Fin 10 → Fin 62 := fun _ i => ⟨i.val, by omega⟩

/-- Secret verification oracle for concrete scenarios: accepts exactly the
candidate secret "good". -/
def demoVerify : String → String → Bool := fun c _ => c == "good"

def openEnv : Env := ⟨true, 20, 5, none⟩

def tightEnv : Env := ⟨true, 1, 5, none⟩

def unapprovedSystem : List (String × FragMeta) :=
  [("F", ⟨"H", false, ["203.0.113.9"], none⟩)]

def approvedSystem : List (String × FragMeta) :=
  [("F", ⟨"H", true, ["203.0.113.9"], none⟩)]

def connA : String × ConnRecord := ("a", ⟨"203.0.113.1", 0, ⟨0, true⟩⟩)

def connB : String × ConnRecord := ("b", ⟨"203.0.113.2", 0, ⟨1, true⟩⟩)

def connC : String × ConnRecord := ("c3", ⟨"203.0.113.3", 0, ⟨2, true⟩⟩)

def twoConnReg : Registry := [("F", [connA, connB])]

def threeConnReg : Registry := [("F", [connA, connB, connC])]

def oneConnReg : Registry := [("F", [("c", ⟨"203.0.113.5", 0, ⟨0, true⟩⟩)])]

def deadConnReg : Registry := [("F", [("c1", ⟨"203.0.113.7", 0, ⟨0, false⟩⟩)])]

/-- A transport oracle under which the send to transport 0 raises. -/
def failFirstSend : Nat → Bool := fun n => n == 0

/-- A transport oracle under which the send to transport 1 raises. -/
def midFailSend : Nat → Bool := fun n => n == 1

def noSendFailures : Nat → Bool := fun _ => false

def demoCtx : SessionCtx := ⟨"F", "c", "203.0.113.5"⟩

def demoState : LoopState := ⟨[], approvedSystem, oneConnReg, 0⟩

def writeFrameFields : List (String × JVal) :=
  [("action", .str "write"), ("data", .obj [("x", .num 1)])]

def authFields : List (String × JVal) :=
  [("apiKey", .str "k"), ("fragmentID", .str "F"), ("secret", .str "good")]

section AssocLemmas

variable {α : Type}

theorem alookup_mem {l : List (String × α)} {k : String} {v : α}
    (h : alookup l k = some v) : (k, v) ∈ l := by
  induction l with
  | nil => simp [alookup] at h
  | cons e rest ih =>
    obtain ⟨k', v'⟩ := e
    by_cases hk : k' = k
    · subst hk
      simp [alookup] at h
      simp [h]
    · simp [alookup, hk] at h
      exact List.mem_cons_of_mem _ (ih h)

theorem alookup_eq_none_iff {l : List (String × α)} {k : String} :
    alookup l k = none ↔ k ∉ l.map Prod.fst := by
  induction l with
  | nil => simp [alookup]
  | cons e rest ih =>
    obtain ⟨k', v'⟩ := e
    by_cases hk : k' = k
    · subst hk; simp [alookup]
    · simp [alookup, hk, ih, Ne.symm hk]

theorem alookup_aset_self (l : List (String × α)) (k : String) (v : α) :
    alookup (aset l k v) k = some v := by
  induction l with
  | nil => simp [aset, alookup]
  | cons e rest ih =>
    obtain ⟨k', v'⟩ := e
    by_cases hk : k' = k
    · subst hk; simp [aset, alookup]
    · simp [aset, alookup, hk, ih]

theorem alookup_filter_none {l : List (String × α)} {k : String}
    (p : String × α → Bool) (h : alookup l k = none) :
    alookup (l.filter p) k = none := by
  rw [alookup_eq_none_iff] at h ⊢
  intro hmem
  exact h (by
    obtain ⟨e, he, hek⟩ := List.mem_map.mp hmem
    exact List.mem_map.mpr ⟨e, (List.mem_filter.mp he).1, hek⟩)

end AssocLemmas

theorem mem_reapGroup {g : List (String × ConnRecord)} {e : String × ConnRecord} :
    e ∈ reapGroup g ↔ e ∈ g ∧ e.2.ws.connected = true := by
  simp [reapGroup, List.mem_filter]

theorem alookup_reapGroup_dead {g : List (String × ConnRecord)} {cid : String}
    {r : ConnRecord} (hnd : (g.map Prod.fst).Nodup)
    (h : alookup g cid = some r) (hdead : r.ws.connected = false) :
    alookup (reapGroup g) cid = none := by
  induction g with
  | nil => simp [alookup] at h
  | cons e rest ih =>
    obtain ⟨k, r'⟩ := e
    simp only [List.map_cons, List.nodup_cons] at hnd
    simp only [reapGroup, List.filter_cons]
    by_cases hk : k = cid
    · subst hk
      have hr : r' = r := by simpa [alookup] using h
      have hdead' : r'.ws.connected = false := by rw [hr]; exact hdead
      rw [if_neg (by simp [hdead'] : ¬((k, r').2.ws.connected = true))]
      exact alookup_filter_none _ (alookup_eq_none_iff.mpr hnd.1)
    · simp only [alookup, if_neg hk] at h
      have hrest := ih hnd.2 h
      simp only [reapGroup] at hrest
      cases hcv : r'.ws.connected
      · simpa [hcv] using hrest
      · simp only [hcv, if_pos (by simp [hcv] : ((k, r').2.ws.connected = true))]
        simpa [alookup, hk] using hrest

theorem clearClosed_group_shape {reg : Registry} {f : String}
    {g : List (String × ConnRecord)} (h : (f, g) ∈ clearClosedConnections reg) :
    ∃ g0, (f, g0) ∈ reg ∧ g = reapGroup g0 := by
  obtain ⟨⟨f0, g0⟩, hfg, hval⟩ := List.mem_filterMap.mp h
  dsimp only at hval
  by_cases hdrop : (reapGroup g0).isEmpty && !g0.isEmpty
  · rw [if_pos hdrop] at hval
    exact absurd hval (by simp)
  · rw [if_neg hdrop] at hval
    have h1 : f0 = f := congrArg Prod.fst (Option.some.inj hval)
    have h2 : reapGroup g0 = g := congrArg Prod.snd (Option.some.inj hval)
    subst h1
    exact ⟨g0, hfg, h2.symm⟩

theorem alookup_clearClosed_none {reg : Registry} {f : String}
    (h : alookup reg f = none) : alookup (clearClosedConnections reg) f = none := by
  rw [alookup_eq_none_iff] at h ⊢
  intro hmem
  apply h
  obtain ⟨⟨e1, e2⟩, he, hek⟩ := List.mem_map.mp hmem
  dsimp only at hek
  subst hek
  obtain ⟨g0, hg0, _⟩ := clearClosed_group_shape he
  exact List.mem_map.mpr ⟨(e1, g0), hg0, rfl⟩

theorem alookup_clearClosed_some {reg : Registry} {f : String}
    {g : List (String × ConnRecord)} (h : alookup reg f = some g)
    (hne : reapGroup g ≠ []) :
    alookup (clearClosedConnections reg) f = some (reapGroup g) := by
  induction reg with
  | nil => simp [alookup] at h
  | cons e rest ih =>
    obtain ⟨k, g0⟩ := e
    simp only [clearClosedConnections, List.filterMap_cons]
    by_cases hk : k = f
    · subst hk
      have hg : g0 = g := by simpa [alookup] using h
      subst hg
      rw [if_neg (by simp [List.isEmpty_iff, hne])]
      simp [alookup]
    · simp only [alookup, if_neg hk] at h
      have hrest := ih h
      simp only [clearClosedConnections] at hrest
      by_cases hdrop : (reapGroup g0).isEmpty && !g0.isEmpty
      · rw [if_pos hdrop]
        exact hrest
      · rw [if_neg hdrop]
        simpa [alookup, hk] using hrest

theorem alookup_clearClosed_dropped {reg : Registry} {f : String}
    {g : List (String × ConnRecord)} (hnd : (reg.map Prod.fst).Nodup)
    (h : alookup reg f = some g) (hempty : reapGroup g = []) (hgne : g ≠ []) :
    alookup (clearClosedConnections reg) f = none := by
  induction reg with
  | nil => simp [alookup] at h
  | cons e rest ih =>
    obtain ⟨k, g0⟩ := e
    simp only [List.map_cons, List.nodup_cons] at hnd
    simp only [clearClosedConnections, List.filterMap_cons]
    by_cases hk : k = f
    · subst hk
      have hg : g0 = g := by simpa [alookup] using h
      subst hg
      rw [if_pos (by simp [List.isEmpty_iff, hempty, hgne])]
      have hnone : alookup rest k = none := alookup_eq_none_iff.mpr hnd.1
      have := alookup_clearClosed_none hnone
      simpa [clearClosedConnections] using this
    · simp only [alookup, if_neg hk] at h
      have hrest := ih hnd.2 h
      simp only [clearClosedConnections] at hrest
      by_cases hdrop : (reapGroup g0).isEmpty && !g0.isEmpty
      · rw [if_pos hdrop]
        exact hrest
      · rw [if_neg hdrop]
        simpa [alookup, hk] using hrest

theorem sendLoop_all_ok {sf : Nat → Bool} {g : List (String × ConnRecord)}
    (h : ∀ e ∈ g, sf e.2.ws.wsid = false) :
    sendLoop sf g = (true, g.map (fun e => e.2.ws.wsid)) := by
  induction g with
  | nil => rfl
  | cons e rest ih =>
    have he := h e (List.mem_cons_self e rest)
    have hr := ih (fun e' he' => h e' (List.mem_cons_of_mem e he'))
    simp [sendLoop, he, hr]

theorem sendLoop_mem {sf : Nat → Bool} {g : List (String × ConnRecord)} {x : Nat}
    (h : x ∈ (sendLoop sf g).2) : ∃ e ∈ g, e.2.ws.wsid = x := by
  induction g with
  | nil => simp [sendLoop] at h
  | cons e rest ih =>
    by_cases hf : sf e.2.ws.wsid
    · simp [sendLoop, hf] at h
    · simp only [sendLoop, if_neg hf, List.mem_cons] at h
      rcases h with h | h
      · exact ⟨e, List.mem_cons_self e rest, h.symm⟩
      · obtain ⟨e', he', hx⟩ := ih h
        exact ⟨e', List.mem_cons_of_mem e he', hx⟩

theorem sendLoop_append (sf : Nat → Bool) (g1 g2 : List (String × ConnRecord)) :
    sendLoop sf (g1 ++ g2) =
      (if (sendLoop sf g1).1 then ((sendLoop sf g2).1, (sendLoop sf g1).2 ++ (sendLoop sf g2).2)
       else (false, (sendLoop sf g1).2)) := by
  induction g1 with
  | nil => simp [sendLoop]
  | cons e rest ih =>
    by_cases hf : sf e.2.ws.wsid
    · simp [sendLoop, hf]
    · simp only [List.cons_append, sendLoop, if_neg hf]
      by_cases h1 : (sendLoop sf rest).1 <;> simp [h1, ih]

theorem push_mem_sentTo {reg : Registry} {f : String} {sf : Nat → Bool} {x : Nat}
    (h : x ∈ (push reg f sf).sentTo) : x ∈ connectedWsIDs reg := by
  unfold push at h
  rcases hl : alookup (clearClosedConnections reg) f with _ | g
  · rw [hl] at h
    simp at h
  · rw [hl] at h
    dsimp only at h
    obtain ⟨e, he, hx⟩ := sendLoop_mem h
    obtain ⟨g0, hg0, hge⟩ := clearClosed_group_shape (alookup_mem hl)
    subst hge
    unfold connectedWsIDs
    rw [List.mem_flatMap]
    exact ⟨(f, g0), hg0, List.mem_map.mpr ⟨e, he, hx⟩⟩

theorem push_sends_to_connected {reg : Registry} {f cid : String} {sf : Nat → Bool}
    {r : ConnRecord} (hall : ∀ n, sf n = false)
    (h : connLookup reg f cid = some r) (hc : r.ws.connected = true) :
    r.ws.wsid ∈ (push reg f sf).sentTo := by
  unfold connLookup at h
  rcases hg : alookup reg f with _ | g
  · rw [hg] at h
    simp at h
  · rw [hg] at h
    replace h : alookup g cid = some r := h
    have hmem : (cid, r) ∈ reapGroup g :=
      mem_reapGroup.mpr ⟨alookup_mem h, hc⟩
    have hne : reapGroup g ≠ [] := fun hnil => by simp [hnil] at hmem
    have hcc := alookup_clearClosed_some hg hne
    unfold push
    rw [hcc]
    dsimp only
    rw [sendLoop_all_ok (fun e _ => hall e.2.ws.wsid)]
    exact List.mem_map.mpr ⟨(cid, r), hmem, rfl⟩

theorem push_ok_false_log {reg : Registry} {f : String} {sf : Nat → Bool}
    (h : (push reg f sf).ok = false) : (push reg f sf).log ≠ [] := by
  unfold push at h ⊢
  rcases hl : alookup (clearClosedConnections reg) f with _ | g
  · rw [hl] at h
    simp at h
  · rw [hl] at h
    dsimp only at h
    dsimp only
    rw [h]
    simp

theorem push_abort_after_failure {reg : Registry} {f : String} {sf : Nat → Bool}
    {pre post : List (String × ConnRecord)} {e e' : String × ConnRecord}
    (hgrp : alookup (clearClosedConnections reg) f = some (pre ++ e :: post))
    (hnd : ((pre ++ e :: post).map (fun x => x.2.ws.wsid)).Nodup)
    (hfail : sf e.2.ws.wsid = true) (hpost : e' ∈ post) :
    e'.2.ws.wsid ∉ (push reg f sf).sentTo := by
  intro hmem
  unfold push at hmem
  rw [hgrp] at hmem
  dsimp only at hmem
  rw [sendLoop_append] at hmem
  have hdisj : e'.2.ws.wsid ∉ pre.map (fun x => x.2.ws.wsid) := by
    rw [List.map_append, List.nodup_append] at hnd
    intro hin
    exact hnd.2.2 hin (by
      simp only [List.map_cons, List.mem_cons]
      exact Or.inr (List.mem_map.mpr ⟨e', hpost, rfl⟩))
  by_cases h1 : (sendLoop sf pre).1
  · rw [if_pos h1] at hmem
    simp only [sendLoop, hfail, if_pos rfl] at hmem
    simp only [List.mem_append, List.not_mem_nil, or_false] at hmem
    rcases hmem with hmem | hmem
    · obtain ⟨e0, he0, hx⟩ := sendLoop_mem hmem
      exact hdisj (List.mem_map.mpr ⟨e0, he0, hx⟩)
    · simp at hmem
  · rw [if_neg h1] at hmem
    dsimp only at hmem
    obtain ⟨e0, he0, hx⟩ := sendLoop_mem hmem
    exact hdisj (List.mem_map.mpr ⟨e0, he0, hx⟩)

theorem close_ok_connected {reg : Registry} {f cid : String}
    (h : (close reg f cid).ok = true) :
    ∃ r, connLookup (clearClosedConnections reg) f cid = some r ∧
      r.ws.connected = true := by
  unfold close at h
  rcases hl : alookup (clearClosedConnections reg) f with _ | g
  · rw [hl] at h
    simp at h
  · rw [hl] at h
    dsimp only at h
    rcases hc : alookup g cid with _ | r
    · rw [hc] at h
      simp at h
    · refine ⟨r, ?_, ?_⟩
      · unfold connLookup
        rw [hl]
        simpa using hc
      · obtain ⟨g0, _, hge⟩ := clearClosed_group_shape (alookup_mem hl)
        subst hge
        exact (mem_reapGroup.mp (alookup_mem hc)).2

theorem serveStep_discard (ctx : SessionCtx) (sf : Nat → Bool) (st : LoopState)
    (t : ℚ) (buf : Buffer) (h : t - st.lastUpdateReceived < 1 / 2) :
    serveStep ctx sf st (.frame t buf) = ⟨st, [], none, [], false, .continueLoop⟩ := by
  simp only [serveStep]
  rw [if_pos h]

theorem execWriteAction_accepted_last (ctx : SessionCtx) (sf : Nat → Bool)
    (st1 : LoopState) (t : ℚ) (d : JVal) (ht : st1.lastUpdateReceived = t) :
    (execWriteAction ctx sf st1 t d).accepted = true ∧
    (execWriteAction ctx sf st1 t d).st.lastUpdateReceived = t := by
  unfold execWriteAction
  cases alookup st1.system ctx.fragID <;> simp [ht]

theorem execOtherAction_accepted_last (ctx : SessionCtx) (st1 : LoopState)
    (act : JVal) :
    (execOtherAction ctx st1 act).accepted = true ∧
    (execOtherAction ctx st1 act).st.lastUpdateReceived = st1.lastUpdateReceived := by
  unfold execOtherAction
  split_ifs <;> simp

theorem serveDispatch_accepted_last (ctx : SessionCtx) (sf : Nat → Bool)
    (st1 : LoopState) (t : ℚ) (buf : Buffer) (ht : st1.lastUpdateReceived = t) :
    (serveDispatch ctx sf st1 t buf).accepted = true ∧
    (serveDispatch ctx sf st1 t buf).st.lastUpdateReceived = t := by
  cases buf with
  | invalid => exact ⟨rfl, ht⟩
  | valid fields =>
    simp only [serveDispatch]
    cases alookup fields "action" with
    | none => exact ⟨rfl, ht⟩
    | some act =>
      cases alookup fields "data" with
      | none =>
        have h := execOtherAction_accepted_last ctx st1 act
        exact ⟨h.1, h.2.trans ht⟩
      | some d =>
        dsimp only
        by_cases hw : act.isStrEq "write" && d.isObj
        · rw [if_pos hw]
          exact execWriteAction_accepted_last ctx sf st1 t d ht
        · rw [if_neg hw]
          have h := execOtherAction_accepted_last ctx st1 act
          exact ⟨h.1, h.2.trans ht⟩

theorem serveStep_accepted_last (ctx : SessionCtx) (sf : Nat → Bool) (st : LoopState)
    (t : ℚ) (buf : Buffer) (h : ¬(t - st.lastUpdateReceived < 1 / 2)) :
    (serveStep ctx sf st (.frame t buf)).accepted = true ∧
    (serveStep ctx sf st (.frame t buf)).st.lastUpdateReceived = t := by
  simp only [serveStep]
  rw [if_neg h]
  exact serveDispatch_accepted_last ctx sf _ t buf rfl

theorem serveStep_sendFails_indep (ctx : SessionCtx) (sf sf' : Nat → Bool)
    (st : LoopState) (ev : RecvEvent) :
    (serveStep ctx sf st ev).ownFrames = (serveStep ctx sf' st ev).ownFrames ∧
    (serveStep ctx sf st ev).ctl = (serveStep ctx sf' st ev).ctl ∧
    (serveStep ctx sf st ev).st.store = (serveStep ctx sf' st ev).st.store := by
  cases ev with
  | transportFailure => refine ⟨?_, ?_, ?_⟩ <;> rfl
  | frame t buf =>
    simp only [serveStep]
    by_cases hg : t - st.lastUpdateReceived < 1 / 2
    · rw [if_pos hg, if_pos hg]
      refine ⟨?_, ?_, ?_⟩ <;> rfl
    · rw [if_neg hg, if_neg hg]
      cases buf with
      | invalid => refine ⟨?_, ?_, ?_⟩ <;> rfl
      | valid fields =>
        simp only [serveDispatch]
        cases alookup fields "action" with
        | none => refine ⟨?_, ?_, ?_⟩ <;> rfl
        | some act =>
          cases alookup fields "data" with
          | none => refine ⟨?_, ?_, ?_⟩ <;> rfl
          | some d =>
            dsimp only
            by_cases hw : act.isStrEq "write" && d.isObj
            · rw [if_pos hw, if_pos hw]
              simp only [execWriteAction]
              cases alookup ({ st with lastUpdateReceived := t } : LoopState).system
                  ctx.fragID with
              | none => refine ⟨?_, ?_, ?_⟩ <;> rfl
              | some meta => refine ⟨?_, ?_, ?_⟩ <;> rfl
            · rw [if_neg hw, if_neg hw]
              refine ⟨?_, ?_, ?_⟩ <;> rfl

theorem sourceChars_alphanum : ∀ c ∈ sourceChars, c.isAlphanum = true := by decide

theorem renderID_length (k : Nat) (c : Fin k → Fin 62) : (renderID k c).length = k := by
  simp [renderID, String.length]

theorem renderID_chars (k : Nat) (c : Fin k → Fin 62) :
    ∀ ch ∈ (renderID k c).data, ch ∈ sourceChars := by
  intro ch hch
  simp only [renderID, String.data, List.mem_map] at hch
  obtain ⟨j, _, hj⟩ := hch
  rw [← hj]
  exact List.mem_iff_get.mpr ⟨_, rfl⟩

theorem generateUniqueID_spec {k : Nat} {notIn : List String}
    {cand : Nat → Fin k → Fin 62} {fuel i : Nat} {id : String}
    (h : generateUniqueID k notIn cand fuel i = some id) :
    id ∉ notIn ∧ ∃ j, id = renderID k (cand j) := by
  induction fuel generalizing i with
  | zero => simp [generateUniqueID] at h
  | succ fuel ih =>
    simp only [generateUniqueID] at h
    by_cases hmem : renderID k (cand i) ∈ notIn
    · rw [if_pos hmem] at h
      exact ih h
    · rw [if_neg hmem] at h
      have hid : renderID k (cand i) = id := Option.some.inj h
      subst hid
      exact ⟨hmem, i, rfl⟩

theorem alookup_ensureGroup (reg : Registry) (f : String) :
    alookup (ensureGroup reg f) f = some ((alookup reg f).getD []) := by
  unfold ensureGroup
  rcases hl : alookup reg f with _ | g
  · rw [if_neg (by simp [hl])]
    rw [alookup_aset_self]
    simp [hl]
  · rw [if_pos (by simp [hl])]
    simp [hl]

/-- Claim C10: for every fragmentID absent from the registry table,
`StreamCentre.getConnections` returns the empty list `[]`, whereas for every
present fragmentID it returns the group dict itself — the return shape
differs between the two cases. -/
theorem getConnections_return_shape (reg : Registry) (f : String) :
    (alookup reg f = none ∧ getConnections reg f = .emptyList) ∨
    (∃ g, alookup reg f = some g ∧ getConnections reg f = .table g) := by
  unfold getConnections
  rcases hl : alookup reg f with _ | g
  · exact Or.inl ⟨rfl, rfl⟩
  · exact Or.inr ⟨g, rfl, rfl⟩

/-- Claim C9: for every valid JSON-object buffer, the StreamMessage parser
classifies by the precedence error, then event, else unknown; a present
`message` key then sets the message and promotes a still-unknown type to
`message`; `data` is carried through regardless; a buffer that is not valid
JSON is a hard failure (no `StreamMessage` is produced). -/
theorem streamMessage_classification (fields : List (String × JVal)) :
    parseStreamMessage (.valid fields) =
      some ⟨claimedType fields, alookup fields "data", claimedMessage fields⟩ ∧
    parseStreamMessage .invalid = none := by
  refine ⟨?_, rfl⟩
  simp only [parseStreamMessage, parseFinal, parseBase, claimedType, claimedBaseType,
    claimedMessage]
  rcases he : alookup fields "error" with _ | e <;>
    rcases hv : alookup fields "event" with _ | ev <;>
      rcases hm : alookup fields "message" with _ | m <;>
        simp [JVal.isStrEq]

/-- Claim C5 (counterexample): the admission-count check of the handshake
reads the raw registry table without reaping first — with a ceiling of 1 and
a single registered session whose transport is confirmed closed, the next
connection is refused even though the reaped count is 0. -/
theorem admission_check_counts_dead_sessions :
    getConnectionsCount deadConnReg = 1 ∧
    (∀ e ∈ deadConnReg, ∀ c ∈ e.2, c.2.ws.connected = false) ∧
    streamFragmentHandshake tightEnv demoVerify approvedSystem deadConnReg
        "203.0.113.9" ⟨9, true⟩ 0 (some (.valid authFields)) idCand 1 =
      some .maxConnsReached ∧
    getConnectionsCount (clearClosedConnections deadConnReg) = 0 :=
  ⟨rfl, by decide, rfl, rfl⟩

/-- Claim C5 (amended): reaping precedes every broadcast and every forced
close — `push` only ever sends to transports that are connected in the raw
table, and a successful `close` necessarily targeted a connection that is
still present and connected after the reap.  Admission-count checks, by
contrast, read the raw table without reaping. -/
theorem broadcast_and_close_reap_first (reg : Registry) (f cid : String)
    (sf : Nat → Bool) :
    (∀ x ∈ (push reg f sf).sentTo, x ∈ connectedWsIDs reg) ∧
    ((close reg f cid).ok = true →
      ∃ r, connLookup (clearClosedConnections reg) f cid = some r ∧
        r.ws.connected = true) :=
  ⟨fun _ hx => push_mem_sentTo hx, close_ok_connected⟩

/-- Witness for `broadcast_and_close_reap_first` at a one-session registry. -/
theorem broadcast_and_close_reap_first_witness :
    0 ∈ connectedWsIDs oneConnReg ∧
    (∃ r, connLookup (clearClosedConnections oneConnReg) "F" "c" = some r ∧
      r.ws.connected = true) :=
  ⟨(broadcast_and_close_reap_first oneConnReg "F" "c" noSendFailures).1 0 (by decide),
   (broadcast_and_close_reap_first oneConnReg "F" "c" noSendFailures).2 rfl⟩

/-- Claim C1 (counterexample): a failing send to the first session of a
fragment aborts the whole broadcast loop — the second session is registered,
its transport connected, its own send would succeed, and yet it receives
nothing. -/
theorem push_send_failure_skips_remaining :
    connLookup twoConnReg "F" "b" = some ⟨"203.0.113.2", 0, ⟨1, true⟩⟩ ∧
    failFirstSend 1 = false ∧
    (push twoConnReg "F" failFirstSend).ok = false ∧
    (push twoConnReg "F" failFirstSend).sentTo = [] :=
  ⟨rfl, rfl, rfl, rfl⟩

/-- Claim C1 (amended): a failure to send to one session during a broadcast
is logged and is invisible to the session that triggered the write (its own
frames, control flow and stored data are unchanged by send failures), but it
aborts the broadcast: sessions after the failing one in iteration order do
not receive the frame. -/
theorem push_failure_logged_isolated_but_aborts
    (reg : Registry) (f : String) (sf : Nat → Bool) (ctx : SessionCtx)
    (st : LoopState) (ev : RecvEvent)
    (pre post : List (String × ConnRecord)) (e e' : String × ConnRecord)
    (hgrp : alookup (clearClosedConnections reg) f = some (pre ++ e :: post))
    (hnd : ((pre ++ e :: post).map (fun x => x.2.ws.wsid)).Nodup)
    (hfail : sf e.2.ws.wsid = true) (hpost : e' ∈ post) :
    ((push reg f sf).ok = false → (push reg f sf).log ≠ []) ∧
    (serveStep ctx sf st ev).ownFrames = (serveStep ctx noSendFailures st ev).ownFrames ∧
    (serveStep ctx sf st ev).ctl = (serveStep ctx noSendFailures st ev).ctl ∧
    (serveStep ctx sf st ev).st.store = (serveStep ctx noSendFailures st ev).st.store ∧
    e'.2.ws.wsid ∉ (push reg f sf).sentTo :=
  have hi := serveStep_sendFails_indep ctx sf noSendFailures st ev
  ⟨push_ok_false_log, hi.1, hi.2.1, hi.2.2,
   push_abort_after_failure hgrp hnd hfail hpost⟩

/-- Witness for `push_failure_logged_isolated_but_aborts`: three sessions,
the middle send fails, the third transport receives nothing. -/
theorem push_failure_logged_isolated_but_aborts_witness :
    ((push threeConnReg "F" midFailSend).ok = false →
      (push threeConnReg "F" midFailSend).log ≠ []) ∧
    (serveStep demoCtx midFailSend demoState .transportFailure).ownFrames =
      (serveStep demoCtx noSendFailures demoState .transportFailure).ownFrames ∧
    (serveStep demoCtx midFailSend demoState .transportFailure).ctl =
      (serveStep demoCtx noSendFailures demoState .transportFailure).ctl ∧
    (serveStep demoCtx midFailSend demoState .transportFailure).st.store =
      (serveStep demoCtx noSendFailures demoState .transportFailure).st.store ∧
    2 ∉ (push threeConnReg "F" midFailSend).sentTo :=
  push_failure_logged_isolated_but_aborts threeConnReg "F" midFailSend demoCtx
    demoState .transportFailure [connA] [connC] connB connC rfl (by decide) rfl
    (by decide)

/-- Claim C2 (code evaluated at the failing input): the `streamFragment`
handshake never consults the `approved` flag — against a stored fragment
with `approved = false` and a correct secret, the connection is accepted,
registered, and reaches the serve loop instead of being closed with an
error before registration. -/
theorem unapproved_fragment_reaches_registration :
    (alookup unapprovedSystem "F").map FragMeta.approved = some false ∧
    streamFragmentHandshake openEnv demoVerify unapprovedSystem [] "203.0.113.9"
        ⟨3, true⟩ 7 (some (.valid authFields)) idCand 1 =
      some (.registered "0123456789"
        [("F", [("0123456789", ⟨"203.0.113.9", 7, ⟨3, true⟩⟩)])]) :=
  ⟨rfl, rfl⟩

/-- Claim C7 (code evaluated at the failing input): the serve loop has no
ping arm — an inbound frame with action `ping` on an Active session falls to
the invalid-action branch and is answered with an error frame rather than
being executed as a ping. -/
theorem ping_action_rejected_as_invalid :
    serveStep demoCtx noSendFailures demoState
        (.frame 1 (.valid [("action", .str "ping")])) =
      ⟨⟨[], approvedSystem, oneConnReg, 1⟩,
        [MessageWriter.error "Invalid action."], none, [], true, .continueLoop⟩ := by
  have hg : ¬((1 : ℚ) - demoState.lastUpdateReceived < 1 / 2) := by
    norm_num [demoState]
  simp only [serveStep]
  rw [if_neg hg]
  rfl

/-- Claim C4: a transport-level failure of `ws.receive()` propagates out of
the serve loop uncaught — the iteration sends no frame, performs no action,
and the handler terminates (the session is Closed); since the broken
transport reports not connected, the reap performed before any subsequent
read of the registry removes the session's entry. -/
theorem transport_failure_ends_session
    (ctx : SessionCtx) (sf : Nat → Bool) (st : LoopState) (reg : Registry)
    (f cid : String) (r : ConnRecord) (hwf : RegistryWF reg)
    (hr : connLookup reg f cid = some r) (hdead : r.ws.connected = false) :
    serveStep ctx sf st .transportFailure = ⟨st, [], none, [], false, .raised⟩ ∧
    connLookup (clearClosedConnections reg) f cid = none := by
  refine ⟨rfl, ?_⟩
  unfold connLookup at hr ⊢
  rcases hg : alookup reg f with _ | g
  · rw [hg] at hr
    simp at hr
  · rw [hg] at hr
    replace hr : alookup g cid = some r := hr
    have hgnd : (g.map Prod.fst).Nodup := hwf.2 (f, g) (alookup_mem hg)
    by_cases hre : reapGroup g = []
    · rw [alookup_clearClosed_dropped hwf.1 hg hre
        (by rintro rfl; simp [alookup] at hr)]
      rfl
    · rw [alookup_clearClosed_some hg hre]
      exact alookup_reapGroup_dead hgnd hr hdead

/-- Witness for `transport_failure_ends_session` at a registry holding one
session whose transport is closed. -/
theorem transport_failure_ends_session_witness :
    serveStep demoCtx noSendFailures demoState .transportFailure =
      ⟨demoState, [], none, [], false, .raised⟩ ∧
    connLookup (clearClosedConnections deadConnReg) "F" "c1" = none :=
  transport_failure_ends_session demoCtx noSendFailures demoState deadConnReg
    "F" "c1" ⟨"203.0.113.7", 0, ⟨0, false⟩⟩ ⟨by decide, by decide⟩ rfl rfl

/-- Claim C6: a frame arriving less than 0.5 time units after the previous
accepted frame is silently discarded — the state, including the rate-gate
clock, is untouched, no response frame is sent, and no action runs — while a
frame arriving at least 0.5 time units after the previous accepted one is
processed; so of two frames 0.1 apart after an accepted one, only the first
is processed. -/
theorem rate_gate (ctx : SessionCtx) (sf : Nat → Bool) (st : LoopState)
    (t1 t2 : ℚ) (buf1 buf2 : Buffer)
    (h1 : ¬(t1 - st.lastUpdateReceived < 1 / 2)) :
    (serveStep ctx sf st (.frame t1 buf1)).accepted = true ∧
    (t2 - t1 < 1 / 2 →
      serveStep ctx sf (serveStep ctx sf st (.frame t1 buf1)).st (.frame t2 buf2) =
        ⟨(serveStep ctx sf st (.frame t1 buf1)).st, [], none, [], false,
          .continueLoop⟩) ∧
    (¬(t2 - t1 < 1 / 2) →
      (serveStep ctx sf (serveStep ctx sf st (.frame t1 buf1)).st
          (.frame t2 buf2)).accepted = true) := by
  obtain ⟨hacc, hlast⟩ := serveStep_accepted_last ctx sf st t1 buf1 h1
  refine ⟨hacc, ?_, ?_⟩
  · intro h2
    exact serveStep_discard _ _ _ _ _ (by rw [hlast]; exact h2)
  · intro h2
    exact (serveStep_accepted_last _ _ _ _ _ (by rw [hlast]; exact h2)).1

/-- Witness for `rate_gate`: after an accepted frame at time 1, a frame 0.1
later is silently discarded, while a frame 0.5 later is accepted. -/
theorem rate_gate_witness :
    (serveStep demoCtx noSendFailures demoState (.frame 1 .invalid)).accepted = true ∧
    serveStep demoCtx noSendFailures
        (serveStep demoCtx noSendFailures demoState (.frame 1 .invalid)).st
        (.frame (11 / 10) .invalid) =
      ⟨(serveStep demoCtx noSendFailures demoState (.frame 1 .invalid)).st,
        [], none, [], false, .continueLoop⟩ ∧
    (serveStep demoCtx noSendFailures
        (serveStep demoCtx noSendFailures demoState (.frame 1 .invalid)).st
        (.frame (3 / 2) .invalid)).accepted = true :=
  have h1 := rate_gate demoCtx noSendFailures demoState 1 (11 / 10) .invalid .invalid
    (by norm_num [demoState])
  have h2 := rate_gate demoCtx noSendFailures demoState 1 (3 / 2) .invalid .invalid
    (by norm_num [demoState])
  ⟨h1.1, h1.2.1 (by norm_num), h2.2.2 (by norm_num)⟩

/-- Claim C3: an accepted `write` frame with object data `d` on an Active
session persists `d` to the store under the session's fragment, sets the
fragment's `lastUpdate`, appends the caller's IP to `knownIPs` when new, and
broadcasts a write-event frame carrying `d` to every registered session on
the fragment whose transport is connected — the writer itself included —
while the loop continues. -/
theorem write_action_persists_updates_broadcasts
    (ctx : SessionCtx) (sf : Nat → Bool) (st : LoopState) (t : ℚ) (d : JVal)
    (fields : List (String × JVal)) (meta : FragMeta) (r : ConnRecord)
    (hgate : ¬(t - st.lastUpdateReceived < 1 / 2))
    (hact : alookup fields "action" = some (.str "write"))
    (hdata : alookup fields "data" = some d)
    (hobj : d.isObj = true)
    (hmeta : alookup st.system ctx.fragID = some meta)
    (hsend : ∀ n, sf n = false)
    (hreg : connLookup st.reg ctx.fragID ctx.connID = some r)
    (hconn : r.ws.connected = true) :
    alookup (serveStep ctx sf st (.frame t (.valid fields))).st.store ctx.fragID =
      some d ∧
    alookup (serveStep ctx sf st (.frame t (.valid fields))).st.system ctx.fragID =
      some { meta with
             lastUpdate := some t
             knownIPs := if ctx.ip ∈ meta.knownIPs then meta.knownIPs
                         else meta.knownIPs ++ [ctx.ip] } ∧
    (serveStep ctx sf st (.frame t (.valid fields))).pushedFrame =
      some (MessageWriter.writeEvent d) ∧
    (∀ cid r', connLookup st.reg ctx.fragID cid = some r' →
      r'.ws.connected = true →
      r'.ws.wsid ∈ (serveStep ctx sf st (.frame t (.valid fields))).pushedTo) ∧
    r.ws.wsid ∈ (serveStep ctx sf st (.frame t (.valid fields))).pushedTo ∧
    (serveStep ctx sf st (.frame t (.valid fields))).ctl = .continueLoop := by
  have hstep : serveStep ctx sf st (.frame t (.valid fields)) =
      execWriteAction ctx sf { st with lastUpdateReceived := t } t d := by
    simp only [serveStep]
    rw [if_neg hgate]
    simp only [serveDispatch]
    rw [hact, hdata]
    dsimp only
    rw [if_pos (by simp [JVal.isStrEq, hobj])]
  rw [hstep]
  simp only [execWriteAction]
  have hmeta1 : alookup ({ st with lastUpdateReceived := t } : LoopState).system
      ctx.fragID = some meta := hmeta
  rw [hmeta1]
  dsimp only
  refine ⟨?_, ?_, rfl, ?_, ?_, rfl⟩
  · exact alookup_aset_self _ _ _
  · rw [alookup_aset_self]
    rfl
  · intro cid r' h' hc'
    exact push_sends_to_connected hsend h' hc'
  · exact push_sends_to_connected hsend hreg hconn

/-- Witness for `write_action_persists_updates_broadcasts`: a concrete write
of the object with key x on the one-session registry; the writer's own
transport 0 receives the broadcast. -/
theorem write_action_witness :
    alookup (serveStep demoCtx noSendFailures demoState
        (.frame 1 (.valid writeFrameFields))).st.store "F" =
      some (.obj [("x", .num 1)]) ∧
    alookup (serveStep demoCtx noSendFailures demoState
        (.frame 1 (.valid writeFrameFields))).st.system "F" =
      some ⟨"H", true, ["203.0.113.9", "203.0.113.5"], some 1⟩ ∧
    (serveStep demoCtx noSendFailures demoState
        (.frame 1 (.valid writeFrameFields))).pushedFrame =
      some (MessageWriter.writeEvent (.obj [("x", .num 1)])) ∧
    0 ∈ (serveStep demoCtx noSendFailures demoState
        (.frame 1 (.valid writeFrameFields))).pushedTo ∧
    (serveStep demoCtx noSendFailures demoState
        (.frame 1 (.valid writeFrameFields))).ctl = .continueLoop :=
  have h := write_action_persists_updates_broadcasts demoCtx noSendFailures
    demoState 1 (.obj [("x", .num 1)]) writeFrameFields
    ⟨"H", true, ["203.0.113.9"], none⟩ ⟨"203.0.113.5", 0, ⟨0, true⟩⟩
    (by norm_num [demoState]) rfl rfl rfl rfl (fun _ => rfl) rfl rfl
  ⟨h.1, h.2.1, h.2.2.1, h.2.2.2.2.1, h.2.2.2.2.2⟩

/-- Claim C8: whenever `addConnection` returns, the connectionID it returns
is 10 characters long, consists only of alphanumeric characters, differs
from every connectionID registered under that fragment at the time of the
call, and the session record is stored under it in the returned table. -/
theorem register_returns_fresh_alphanumeric_id
    (reg : Registry) (f ip : String) (now : ℚ) (ws : WS)
    (cand : Nat → Fin 10 → Fin 62) (fuel : Nat) (reg' : Registry) (cid : String)
    (h : addConnection reg f ip now ws cand fuel = some (reg', cid)) :
    cid.length = 10 ∧
    (∀ ch ∈ cid.data, ch.isAlphanum = true) ∧
    (∀ g, alookup reg f = some g → alookup g cid = none) ∧
    connLookup reg' f cid = some ⟨ip, now, ws⟩ := by
  unfold addConnection at h
  rcases hgen : generateUniqueID 10
      (((alookup (ensureGroup reg f) f).getD []).map Prod.fst) cand fuel 0
    with _ | id
  · rw [hgen] at h
    simp at h
  · rw [hgen] at h
    dsimp only at h
    have hinj := Option.some.inj h
    have hreg : aset (ensureGroup reg f) f
        (aset ((alookup (ensureGroup reg f) f).getD []) id ⟨ip, now, ws⟩) = reg' :=
      congrArg Prod.fst hinj
    have hid : id = cid := congrArg Prod.snd hinj
    subst hid
    obtain ⟨hfresh, j, hj⟩ := generateUniqueID_spec hgen
    refine ⟨?_, ?_, ?_, ?_⟩
    · rw [hj]
      exact renderID_length 10 (cand j)
    · intro ch hch
      rw [hj] at hch
      exact sourceChars_alphanum ch (renderID_chars 10 (cand j) ch hch)
    · intro g hg
      have hgd : (alookup (ensureGroup reg f) f).getD [] = g := by
        rw [alookup_ensureGroup, hg]
        rfl
      rw [hgd] at hfresh
      exact alookup_eq_none_iff.mpr hfresh
    · rw [← hreg]
      unfold connLookup
      rw [alookup_aset_self]
      simpa using alookup_aset_self _ _ _

/-- Witness for `register_returns_fresh_alphanumeric_id` on an empty
registry with the demo candidate stream. -/
theorem register_witness :
    "0123456789".length = 10 ∧
    connLookup [("F", [("0123456789", ⟨"203.0.113.9", 3, ⟨5, true⟩⟩)])] "F"
        "0123456789" = some ⟨"203.0.113.9", 3, ⟨5, true⟩⟩ :=
  have h := register_returns_fresh_alphanumeric_id [] "F" "203.0.113.9" 3
    ⟨5, true⟩ idCand 1
    [("F", [("0123456789", ⟨"203.0.113.9", 3, ⟨5, true⟩⟩)])] "0123456789" rfl
  ⟨h.1, h.2.2.2⟩

end DataServer
